import Mathlib

/-!
Verification of `retro` (ellohfin/retro) against its natural-language
specification.

The development shallowly embeds the two source files

  * `retro/tables/generate_t_indep_tables.py`
  * `retro/utils/fit_prior_dist.py`

into Lean.  Multi-dimensional numpy arrays become functions out of `Fin`
types with `Int` entries (the claims under study concern the index/summation
structure of the array reductions, which is independent of the scalar type);
filesystem interaction becomes an explicit, passed-in filesystem record plus
an event trace of the side effects the python code performs; python
exceptions become an error component of the result.
-/

namespace Retro

/-- Python exceptions that the embedded code can raise. -/
inductive PyErr where
  | valueError
  | typeError
  | attributeError
  | assertionError
  | indexError
  deriving DecidableEq, Repr

/-! ## `retro/tables/generate_t_indep_tables.py` : data model

A CLSim / Cherenkov table is a 5-dimensional array with dimensions
`(r, costheta, t, costhetadir, deltaphidir)`; the generated time-independent
table is 4-dimensional, `(r, costheta, costhetadir, deltaphidir)`. -/

/-- A 5D table, axes `(r, costheta, t, costhetadir, deltaphidir)`. -/
def Table5 (n₁ n₂ n₃ n₄ n₅ : Nat) : Type :=
  Fin n₁ → Fin n₂ → Fin n₃ → Fin n₄ → Fin n₅ → Int

/-- A 4D table, axes `(r, costheta, costhethadir, deltaphidir)`. -/
def Table4 (n₁ n₂ n₄ n₅ : Nat) : Type :=
  Fin n₁ → Fin n₂ → Fin n₄ → Fin n₅ → Int

/-- Index into the interior of an axis: position `i` of the python slice
`[1:-1]` of an axis of length `n` is position `i + 1` of the full axis. -/
def innerIdx {n : Nat} (i : Fin (n - 2)) : Fin n :=
  ⟨i.val + 1, by omega⟩

/-- The python slicing `a[1:-1, 1:-1, 1:-1, 1:-1, 1:-1]` of a 5D array:
drop the first and last bin of every axis
(`generate_t_indep_tables.py`, line 125). -/
def sliceInterior {n₁ n₂ n₃ n₄ n₅ : Nat} (t : Table5 n₁ n₂ n₃ n₄ n₅) :
    Table5 (n₁ - 2) (n₂ - 2) (n₃ - 2) (n₄ - 2) (n₅ - 2) :=
  fun i j k l m => t (innerIdx i) (innerIdx j) (innerIdx k) (innerIdx l) (innerIdx m)

/-- numpy's `.sum(axis=2)` on a 5D array: sum out the time axis. -/
def sumAxis2 {n₁ n₂ n₃ n₄ n₅ : Nat} (t : Table5 n₁ n₂ n₃ n₄ n₅) :
    Table4 n₁ n₂ n₄ n₅ :=
  fun i j l m => ∑ k : Fin n₃, t i j k l m

/-- The 4D table computed for the `clsim` kind
(`generate_t_indep_tables.py`, line 125):
`clsim_table['table'][1:-1, 1:-1, 1:-1, 1:-1, 1:-1].sum(axis=2)`. -/
def clsimTIndepTable {n₁ n₂ n₃ n₄ n₅ : Nat} (t : Table5 n₁ n₂ n₃ n₄ n₅) :
    Table4 (n₁ - 2) (n₂ - 2) (n₄ - 2) (n₅ - 2) :=
  sumAxis2 (sliceInterior t)

/-- The 4D table computed for the `ckv` kind
(`generate_t_indep_tables.py`, line 155): `ckv_table['ckv_table'].sum(axis=2)`. -/
def ckvTIndepTable {n₁ n₂ n₃ n₄ n₅ : Nat} (t : Table5 n₁ n₂ n₃ n₄ n₅) :
    Table4 n₁ n₂ n₄ n₅ :=
  sumAxis2 t

/-- The specification's words, for comparison with the code: "the same table
with the time dimension summed out" — for every index
`(r, costheta, costhetadir, deltaphidir)`, the sum over all time bins of the
corresponding entries of the full input table. -/
def tIndepSpecTable {n₁ n₂ n₃ n₄ n₅ : Nat} (t : Table5 n₁ n₂ n₃ n₄ n₅) :
    Table4 n₁ n₂ n₄ n₅ :=
  fun i j l m => ∑ k : Fin n₃, t i j k l m

/-! ## Path helpers (python `os.path` on POSIX) -/

/-- `os.path.join(a, b)` for a non-absolute `b`. -/
def pathJoin (a b : String) : String := a ++ "/" ++ b

/-- Python's `str.endswith`: suffix test (on the underlying character
list). -/
def pyEndsWith (s suff : String) : Bool := suff.data.isSuffixOf s.data

/-- Split a character list at every occurrence of `c` (python
`str.split(c)` for a one-character separator). -/
def splitChar (c : Char) : List Char → List (List Char)
  | [] => [[]]
  | x :: xs =>
    if x = c then [] :: splitChar c xs
    else
      match splitChar c xs with
      | [] => [[x]]
      | h :: t => (x :: h) :: t

/-- `os.path.basename`: the part after the last `/`. -/
def pyBasename (p : String) : String :=
  String.mk ((splitChar '/' p.data).getLastD [])

/-- `os.path.dirname`: everything before the last `/`. -/
def pyDirname (p : String) : String :=
  String.intercalate "/" (((splitChar '/' p.data).dropLast).map String.mk)

/-- Python's `str.rstrip(chars)`: remove trailing characters that belong to
the character SET `chars` (so `table.rstrip('.fits')` strips any trailing
run of the characters `.`, `f`, `i`, `t`, `s`). -/
def pyRstrip (p : String) (chars : List Char) : String :=
  String.mk ((p.data.reverse.dropWhile (fun c => chars.contains c)).reverse)

/-- Python's `str.strip().lower()`: remove surrounding whitespace, then
lowercase (the kinds handled here are ASCII). -/
def pyStripLower (s : String) : String :=
  String.mk
    (((s.data.dropWhile Char.isWhitespace).reverse.dropWhile
        Char.isWhitespace).reverse.map Char.toLower)

/-- `[k.strip().lower() for k in kind]` (`generate_t_indep_tables.py`, line 59). -/
def normKinds (kind : List String) : List String :=
  kind.map pyStripLower

/-! ## `generate_time_indep_tables` : effect model -/

/-- The filesystem the table generator sees.  `clsimTable p` is the array
under the `'table'` key of the CLSim table loaded from `p`; `ckvTable p` the
array under the `'ckv_table'` key of the Cherenkov table loaded from `p`. -/
structure TableFS (n₁ n₂ n₃ n₄ n₅ : Nat) where
  isfile : String → Bool
  isdir : String → Bool
  clsimTable : String → Table5 n₁ n₂ n₃ n₄ n₅
  ckvTable : String → Table5 n₁ n₂ n₃ n₄ n₅

/-- Side effects `generate_time_indep_tables` performs, in program order. -/
inductive TblEv where
  | mkdirEv (p : String)
  | loadClsim (p : String)
  | loadCkv (p : String)
  | saveNpy (p : String)
  deriving DecidableEq, Repr

/-- Output-directory derivation (`generate_t_indep_tables.py`, lines 64–71):
when `outdir` is not given it is the table directory, the `.npy` file's
directory, or the `.fits` path right-stripped of the characters `.fits`. -/
def deriveOutdir {n₁ n₂ n₃ n₄ n₅ : Nat} (fs : TableFS n₁ n₂ n₃ n₄ n₅)
    (table : String) (outdir : Option String) : Option String :=
  match outdir with
  | some d => some d
  | none =>
    if fs.isdir table then some table
    else if pyEndsWith table ".npy" then some (pyDirname table)
    else if pyEndsWith table ".fits" then
      some (pyRstrip table ['.', 'f', 'i', 't', 's'])
    else none

/-- Identification of the CLSim source table
(`generate_t_indep_tables.py`, lines 73–82): a file named `table.npy` or
ending in `.fits`, or a directory containing `table.npy` when `clsim` is a
requested kind. -/
def clsimSourcePath {n₁ n₂ n₃ n₄ n₅ : Nat} (fs : TableFS n₁ n₂ n₃ n₄ n₅)
    (kinds : List String) (table : String) : Option String :=
  if fs.isfile table then
    if pyBasename table == "table.npy" || pyEndsWith (pyBasename table) ".fits" then
      some table
    else none
  else if fs.isdir table then
    if kinds.contains "clsim" && fs.isfile (pathJoin table "table.npy") then
      some table
    else none
  else none

/-- Identification of the Cherenkov source table
(`generate_t_indep_tables.py`, lines 73–85): a file named `ckv_table.npy`,
or a directory containing `ckv_table.npy` when `ckv` is a requested kind. -/
def ckvSourcePath {n₁ n₂ n₃ n₄ n₅ : Nat} (fs : TableFS n₁ n₂ n₃ n₄ n₅)
    (kinds : List String) (table : String) : Option String :=
  if fs.isfile table then
    if pyBasename table == "ckv_table.npy" then some table else none
  else if fs.isdir table then
    if kinds.contains "ckv" && fs.isfile (pathJoin table "ckv_table.npy") then
      some table
    else none
  else none

/-- Outcome of one kind's generation branch: the effects it performed, the
4D table it saved (if any), and the exception it raised (if any). -/
structure BranchOut (a b c d : Nat) where
  events : List TblEv
  saved : Option (Table4 a b c d)
  err : Option PyErr

/-- The `clsim` branch (`generate_t_indep_tables.py`, lines 109–137): when
`clsim` is requested and (overwrite, or `t_indep_table.npy` does not already
exist in `outdir`), require a CLSim source table (else `ValueError`), then
`mkdir(outdir)`, load, sum, and save to `outdir/t_indep_table.npy`. -/
def clsimBranchRun {n₁ n₂ n₃ n₄ n₅ : Nat} (fs : TableFS n₁ n₂ n₃ n₄ n₅)
    (kinds : List String) (od : String) (overwrite : Bool) (table : String) :
    BranchOut (n₁ - 2) (n₂ - 2) (n₄ - 2) (n₅ - 2) :=
  let fpath := pathJoin od "t_indep_table.npy"
  let exists_ := kinds.contains "clsim" && fs.isfile fpath
  if kinds.contains "clsim" && (overwrite || !exists_) then
    match clsimSourcePath fs kinds table with
    | none => ⟨[], none, some .valueError⟩
    | some p =>
      ⟨[.mkdirEv od, .loadClsim p, .saveNpy fpath],
       some (clsimTIndepTable (fs.clsimTable p)), none⟩
  else ⟨[], none, none⟩

/-- The `ckv` branch (`generate_t_indep_tables.py`, lines 139–167): when
`ckv` is requested and (overwrite, or `t_indep_ckv_table.npy` does not
already exist in `outdir`), require a Cherenkov source table (else
`ValueError`), then `mkdir(outdir)`, load, sum, and save to
`outdir/t_indep_ckv_table.npy`. -/
def ckvBranchRun {n₁ n₂ n₃ n₄ n₅ : Nat} (fs : TableFS n₁ n₂ n₃ n₄ n₅)
    (kinds : List String) (od : String) (overwrite : Bool) (table : String) :
    BranchOut n₁ n₂ n₄ n₅ :=
  let fpath := pathJoin od "t_indep_ckv_table.npy"
  let exists_ := kinds.contains "ckv" && fs.isfile fpath
  if kinds.contains "ckv" && (overwrite || !exists_) then
    match ckvSourcePath fs kinds table with
    | none => ⟨[], none, some .valueError⟩
    | some p =>
      ⟨[.mkdirEv od, .loadCkv p, .saveNpy fpath],
       some (ckvTIndepTable (fs.ckvTable p)), none⟩
  else ⟨[], none, none⟩

/-- Result of a whole `generate_time_indep_tables` call. -/
structure GenRun (n₁ n₂ n₃ n₄ n₅ : Nat) where
  events : List TblEv
  savedClsim : Option (Table4 (n₁ - 2) (n₂ - 2) (n₄ - 2) (n₅ - 2))
  savedCkv : Option (Table4 n₁ n₂ n₄ n₅)
  err : Option PyErr

/-- `generate_time_indep_tables(table, kind, outdir, overwrite)`
(`generate_t_indep_tables.py`, lines 36–167).  `expand` stands for
`retro.utils.misc.expand` (tilde/envvar expansion; outside this repository's
`src`), passed in as an opaque path transformer.  If `outdir` cannot be
derived, the `os.path.join(None, ...)` on line 88 raises; the `clsim` branch
runs first and a raised `ValueError` aborts the call, so the `ckv` branch
only runs if the `clsim` branch did not raise. -/
def generateTimeIndepTables {n₁ n₂ n₃ n₄ n₅ : Nat} (fs : TableFS n₁ n₂ n₃ n₄ n₅)
    (expand : String → String) (table : String) (kind : List String)
    (outdir : Option String) (overwrite : Bool) : GenRun n₁ n₂ n₃ n₄ n₅ :=
  let kinds := normKinds kind
  let table' := expand table
  match deriveOutdir fs table' outdir with
  | none => ⟨[], none, none, some .typeError⟩
  | some od =>
    let b₁ := clsimBranchRun fs kinds od overwrite table'
    match b₁.err with
    | some e => ⟨b₁.events, b₁.saved, none, some e⟩
    | none =>
      let b₂ := ckvBranchRun fs kinds od overwrite table'
      ⟨b₁.events ++ b₂.events, b₁.saved, b₂.saved, b₂.err⟩

/-! ## `retro/utils/fit_prior_dist.py` : data model

Event arrays are numpy structured arrays; a float value is modelled as
`Option ℚ`, with `none` standing for a non-finite value (`nan`/`±inf`), the
values `np.isfinite` rejects. -/

/-- A python float: `none` models a non-finite value. -/
def PyFloat : Type := Option ℚ

/-- Subtraction of floats: finite − finite is finite; a non-finite operand
makes the result non-finite. -/
def pySub : PyFloat → PyFloat → PyFloat
  | some a, some b => some (a - b)
  | _, _ => none

/-- `np.isfinite`. -/
def isFinite (x : PyFloat) : Bool := x.isSome

/-- Modelled from the spec: `FitStatus` (imported from `retro.retro_types`,
which is not under `src/`) is "an enumerated outcome flag indicating whether
a given reconstruction converged successfully for a given event"; `OK` is
its success value, represented here as the integer `0`.  The claims settled
below depend only on comparisons against this constant, not on its value. -/
def fitStatusOK : Int := 0

/-- One row of a reconstruction's structured array: the per-parameter
estimates and the `fit_status` field. -/
structure RecoEvent where
  val : String → PyFloat
  fit_status : Int

/-- One row of a `truth` structured array: per-parameter true values and the
`weight` field. -/
structure TruthEvent where
  val : String → PyFloat
  weight : ℚ

/-- The error of a reco on one event for one parameter:
`vals[param] - truth[param]`. -/
def errOf (param : String) (pe : RecoEvent × TruthEvent) : PyFloat :=
  pySub (pe.1.val param) (pe.2.val param)

/-- The mask `np.isfinite(err) & (vals['fit_status'] == FitStatus.OK)` as
computed by `extract` (`fit_prior_dist.py`, line 182), elementwise over the
paired reco/truth events. -/
def extractMask (param : String) (pairs : List (RecoEvent × TruthEvent)) :
    List Bool :=
  pairs.map (fun pe => isFinite (errOf param pe) && (pe.1.fit_status == fitStatusOK))

/-- The mask `np.isfinite(err) & (reco_vals[reco]['fit_status'] == FitStatus.OK)`
as computed by `fit` (`fit_prior_dist.py`, line 379). -/
def fitMask (param : String) (pairs : List (RecoEvent × TruthEvent)) :
    List Bool :=
  pairs.map (fun pe => isFinite (errOf param pe) && (pe.1.fit_status == fitStatusOK))

/-- numpy boolean-mask indexing `a[mask]`. -/
def applyMask {α : Type} (xs : List α) (mask : List Bool) : List α :=
  ((xs.zip mask).filter (fun xb => xb.2)).map (fun xb => xb.1)

/-- The event predicate the masks implement: the error is finite and the
reconstruction's fit status equals `FitStatus.OK`. -/
def isValidEvent (param : String) (pe : RecoEvent × TruthEvent) : Bool :=
  isFinite (errOf param pe) && (pe.1.fit_status == fitStatusOK)

/-- `err[mask]` in `extract` (`fit_prior_dist.py`, line 183): the finite
error values of the events the mask keeps. -/
def extractValidErr (param : String) (pairs : List (RecoEvent × TruthEvent)) :
    List ℚ :=
  (applyMask (pairs.map (errOf param)) (extractMask param pairs)).filterMap id

/-- `weights[mask]` in `extract` (weights are `truth['weight']`,
`fit_prior_dist.py`, lines 178 and 189). -/
def extractValidWts (param : String) (pairs : List (RecoEvent × TruthEvent)) :
    List ℚ :=
  applyMask (pairs.map (fun pe => pe.2.weight)) (extractMask param pairs)

/-- `valid_err = err[mask]` in `fit` (`fit_prior_dist.py`, line 380). -/
def fitValidErr (param : String) (pairs : List (RecoEvent × TruthEvent)) :
    List ℚ :=
  (applyMask (pairs.map (errOf param)) (fitMask param pairs)).filterMap id

/-- `valid_wts = truth['weight'][mask]` in `fit` (`fit_prior_dist.py`,
line 381). -/
def fitValidWts (param : String) (pairs : List (RecoEvent × TruthEvent)) :
    List ℚ :=
  applyMask (pairs.map (fun pe => pe.2.weight)) (fitMask param pairs)

/-- `np.average(a, weights=w)`: the weighted arithmetic mean
`sum(a*w) / sum(w)`. -/
def weightedAverage (xs ws : List ℚ) : ℚ :=
  ((xs.zip ws).map (fun p => p.1 * p.2)).sum / ws.sum

/-- One summary row of `reco_perf` as built by `extract`
(`fit_prior_dist.py`, lines 193–202); the `reco`/`param` name columns are
carried by the surrounding iteration. -/
structure PerfRow where
  n_invalid : Nat
  err_mean : ℚ
  err_median : ℚ
  err_min : ℚ
  err_max : ℚ
  err_iq50 : ℚ
  err_iq90 : ℚ
  deriving DecidableEq, Repr

/-- The summary row `extract` computes for one `(reco, param)` pair
(`fit_prior_dist.py`, lines 181–202).  `wp a q weights` stands for
`retro.utils.stats.weighted_percentile` at a single quantile `q` (that
module is not under `src/`; the call with the tuple
`q=(0, 5, 25, 50, 75, 95, 100)` is modelled as the per-quantile function
applied at each requested quantile).  When no event survives the mask the
code raises `ValueError` (line 185), modelled as `none`. -/
def extractRow (wp : List ℚ → ℚ → List ℚ → ℚ) (param : String)
    (pairs : List (RecoEvent × TruthEvent)) : Option PerfRow :=
  let errs := pairs.map (errOf param)
  let mask := extractMask param pairs
  let validErr := (applyMask errs mask).filterMap id
  let validWts := applyMask (pairs.map (fun pe => pe.2.weight)) mask
  if validErr.length = 0 then none
  else
    let minval := wp validErr 0 validWts
    let q5 := wp validErr 5 validWts
    let q25 := wp validErr 25 validWts
    let median := wp validErr 50 validWts
    let q75 := wp validErr 75 validWts
    let q95 := wp validErr 95 validWts
    let maxval := wp validErr 100 validWts
    some
      { n_invalid := errs.length - validErr.length
        err_mean := weightedAverage validErr validWts
        err_median := median
        err_min := minval
        err_max := maxval
        err_iq50 := q75 - q25
        err_iq90 := q95 - q5 }

/-! ## `extract` : sample-file loading -/

/-- The filesystem `extract` reads sample files from: `truthFile flav i` is
the content of `PATH_PROTO.format(abs_flav=flav, i=i) + '/truth.npy'`
(`none` when loading it raises `IOError`), and `recoFile flav reco i` the
content of `.../recos/{reco}.npy`. -/
structure SampleFS where
  truthFile : Nat → Nat → Option (List TruthEvent)
  recoFile : Nat → String → Nat → Option (List RecoEvent)

/-- `ABS_FLAVS = (12, 14, 16)` (`fit_prior_dist.py`, line 83). -/
def absFlavs : List Nat := [12, 14, 16]

/-- The `while True` loading loop of `extract` (`fit_prior_dist.py`,
lines 123–132 and 140–151): starting at index `i`, load consecutively
numbered files and stop at the first index whose load fails.  The source
loop is unbounded; `fuel` only bounds the recursion and any value larger
than the first failing index gives the loop's result. -/
def loadLoop {α : Type} (f : Nat → Option (List α)) : Nat → Nat → List (List α)
  | 0, _ => []
  | fuel + 1, i =>
    match f i with
    | none => []
    | some v => v :: loadLoop f fuel (i + 1)

/-- One flavor's concatenated truth array (`fit_prior_dist.py`,
lines 118–135): `np.concatenate(flav_truth)`. -/
def flavTruth (fs : SampleFS) (fuel flav : Nat) : List TruthEvent :=
  (loadLoop (fs.truthFile flav) fuel 0).flatten

/-- One flavor's concatenated array for one reco (`fit_prior_dist.py`,
lines 139–153). -/
def flavReco (fs : SampleFS) (fuel flav : Nat) (reco : String) : List RecoEvent :=
  (loadLoop (fs.recoFile flav reco) fuel 0).flatten

/-- The full concatenated truth array over all flavors
(`fit_prior_dist.py`, lines 163–174). -/
def allTruth (fs : SampleFS) (fuel : Nat) : List TruthEvent :=
  (absFlavs.map (flavTruth fs fuel)).flatten

/-- The full concatenated array for one reco over all flavors; a flavor
contributes only when it has at least one sample file for the reco
(`fit_prior_dist.py`, lines 152–154 drop empty recos from `flav_recos`). -/
def allReco (fs : SampleFS) (fuel : Nat) (reco : String) : List RecoEvent :=
  (absFlavs.map (fun flav =>
    if (flavReco fs fuel flav reco).isEmpty then [] else flavReco fs fuel flav reco)).flatten

/-! ## `fit_prior_dist.py` : effect model -/

/-- Filesystem side effects of `extract` and `fit`, in program order. -/
inductive FDEv where
  | mkdirEv (p : String)
  | pickleWrite (p : String)
  | textWrite (p : String)
  deriving DecidableEq, Repr

/-- The paths of the pickle files among a list of effects. -/
def pickleWritePaths (evs : List FDEv) : List String :=
  evs.filterMap (fun e => match e with | FDEv.pickleWrite p => some p | _ => none)

/-- The summary rows of an `extract(path_proto, recos, params, outdir)`
call (`fit_prior_dist.py`, lines 88–210; the whole call is `extractRun`
below).  `wp` is
`retro.utils.stats.weighted_percentile` as in `extractRow`; `isdirE` and
`expandO` stand for `os.path.isdir` and `expanduser(expandvars(.))`;
`fuel` bounds the unbounded file-loading loops as in `loadLoop`.  Recos with
no sample file in any flavor never enter `reco_vals` and so get no summary
row (the python dict's key order may interleave differently across flavors;
row order is not modelled).  A `(reco, param)` pair with no valid event
raises `ValueError` (line 185); an empty row list raises `IndexError` at
`reco_perf[0]` (line 207).  Only when no exception was raised and `outdir`
is not `None` does the code create `outdir` if needed and write
`reco_perf.pkl`, `truth.pkl` and `recos.pkl` into it (lines 215–229); the
`reco_vals`/`truth` arrays are paired elementwise as numpy's arithmetic on
equal-length arrays does.  The DataFrame sorting and the extra `err_abs*`
columns (lines 210–213) change no row's named fields and are not modelled. -/
def extractRows (fs : SampleFS) (wp : List ℚ → ℚ → List ℚ → ℚ) (fuel : Nat)
    (recos params : List String) : Option (List PerfRow) :=
  let truth := allTruth fs fuel
  let present := recos.filter (fun r => !(allReco fs fuel r).isEmpty)
  (present.flatMap (fun r => params.map (fun p => (r, p)))).mapM
    (fun rp => extractRow wp rp.2 ((allReco fs fuel rp.1).zip truth))

/-- The persisting tail of `extract` (`fit_prior_dist.py`, lines 215–229):
nothing when `outdir is None`; otherwise `makedirs` when the directory is
missing, then the three pickle writes. -/
def extractPersistEvents (isdirE : String → Bool) (expandO : String → String)
    (outdir : Option String) : List FDEv :=
  match outdir with
  | none => []
  | some d0 =>
    let d := expandO d0
    (if isdirE d then [] else [FDEv.mkdirEv d]) ++
      [FDEv.pickleWrite (pathJoin d "reco_perf.pkl"),
       FDEv.pickleWrite (pathJoin d "truth.pkl"),
       FDEv.pickleWrite (pathJoin d "recos.pkl")]

def extractRun (fs : SampleFS) (wp : List ℚ → ℚ → List ℚ → ℚ) (fuel : Nat)
    (recos params : List String) (isdirE : String → Bool)
    (expandO : String → String) (outdir : Option String) :
    Except PyErr (List PerfRow × List FDEv) :=
  match extractRows fs wp fuel recos params with
  | none => .error .valueError
  | some rows =>
    if rows.isEmpty then .error .indexError
    else .ok (rows, extractPersistEvents isdirE expandO outdir)

/-- The effects of a successful run; an aborted run persisted nothing. -/
def runWrites : Except PyErr (List PerfRow × List FDEv) → List FDEv
  | .ok rw => rw.2
  | .error _ => []

/-- Observable outcome of `fit_distributions_to_data`'s setup: the exception
raised (if any), the worker-pool size (if a pool was created), and how many
fitting tasks were submitted to it. -/
structure FDTDRun where
  err : Option PyErr
  poolSize : Option Nat
  tasksSubmitted : Nat
  deriving DecidableEq, Repr

/-- `fit_distributions_to_data(data, weights, distributions, outfile,
n_procs, timeout)` (`fit_prior_dist.py`, lines 234–321), up to the task
submission.  Line 257 reads `assert outfile.endsiwth('.pkl')`: `str` has no
attribute `endsiwth` (the method is `endswith`), so the attribute lookup
raises `AttributeError` for every non-`None` `outfile` before anything else
runs.  Distributions are represented by name (the `getattr` resolution of
names to `scipy` objects and the wrapping of a single non-iterable argument
into a one-element list keep the count and are elided).  `n_procs` defaults
to `mp.cpu_count()` and is clamped to the number of distributions
(lines 289–291); `mp.Pool(processes=p)` raises `ValueError` when `p < 1`;
line 294 submits one `apply_async(fit_cdf, ...)` task per distribution. -/
def fitDistributionsToData (distributions : List String) (outfile : Option String)
    (n_procs : Option Nat) (cpuCount : Nat) : FDTDRun :=
  match outfile with
  | some _ => ⟨some .attributeError, none, 0⟩
  | none =>
    let np := min (n_procs.getD cpuCount) distributions.length
    if np < 1 then ⟨some .valueError, none, 0⟩
    else ⟨none, some np, distributions.length⟩

/-- Sorting a list of strings, python's `sorted` (lexicographic by code
point). -/
def sortStrings (l : List String) : List String :=
  l.insertionSort (· ≤ ·)

/-- The output file name `fit` builds (`fit_prior_dist.py`, lines 397–403):
`'fit_info__reco={}__params={}__dists_sha256={}.pkl'` formatted with the
reco name, the comma-joined sorted parameter list, and the distributions
hash. -/
def fitOutName (reco : String) (paramsSorted : List String) (hash : String) :
    String :=
  "fit_info__reco=" ++ reco ++ "__params=" ++
    String.intercalate "," paramsSorted ++ "__dists_sha256=" ++ hash ++ ".pkl"

/-- `fit(datadir, reco, params, distributions, timeout)`
(`fit_prior_dist.py`, lines 324–405), effect part.  `isdirD`, `isdirH`,
`isfileH` are `isdir(datadir)`, `isdir(hash_dirpath)`,
`isfile(hash_fpath)`; `shaHex` is the `hashlib.sha256` hex digest, passed
in as an opaque function, truncated to 10 characters as on line 359.
A missing `datadir` fails the `assert` on line 336.  `params` is sorted
(line 353); the distribution names are deduplicated and sorted
(lines 351, 354).  The hash bookkeeping file (a plain text write,
lines 364–366) and the final result pickle (line 404) are recorded as
events; the pickle loads of `truth.pkl`/`recos.pkl` and the per-parameter
fitting loop (which always calls `fit_distributions_to_data` with
`outfile=None`, line 389) produce no writes and are elided. -/
def fitRun (isdirD isdirH isfileH : Bool) (shaHex : String → String)
    (datadir reco : String) (params distNames : List String) :
    Except PyErr (List FDEv) :=
  if !isdirD then .error .assertionError
  else
    let paramsS := sortStrings params
    let distN := sortStrings distNames.dedup
    let distStr := String.intercalate " " distN
    let hash := (shaHex distStr).take 10
    let hashDir := pathJoin datadir "distributions_sha256"
    let evs1 := (if isdirH then [] else [FDEv.mkdirEv hashDir]) ++
      (if isfileH then [] else [FDEv.textWrite (pathJoin hashDir hash)])
    .ok (evs1 ++ [FDEv.pickleWrite (pathJoin datadir (fitOutName reco paramsS hash))])

/-! ## Theorems -/

/-- A concrete 5×5×5×5×5 all-ones table. -/
def onesTable5 : Table5 5 5 5 5 5 := fun _ _ _ _ _ => 1

/-- C1 (counterexample): on the all-ones 5×5×5×5×5 table, the entry of the
4D table the `clsim` code path computes is 3 (the interior time bins of the
interior spatial cell), while the sum over all time bins of the
corresponding entries of the full input table is 5: the computed table is
NOT the full table with the time dimension summed out. -/
theorem clsim_full_time_sum_counterexample :
    clsimTIndepTable onesTable5 ⟨0, by omega⟩ ⟨0, by omega⟩ ⟨0, by omega⟩ ⟨0, by omega⟩ ≠
      tIndepSpecTable onesTable5 ⟨0, by omega⟩ ⟨0, by omega⟩ ⟨0, by omega⟩ ⟨0, by omega⟩ := by
  decide

/-- C1 (amended): for the `clsim` kind the saved 4D table is the input
table first restricted to the interior bins — dropping the first and last
bin along each of the five axes, so each output dimension is two smaller —
and then summed over the time axis: output entry `(r, c, cd, dp)` is the
sum over time bins `1 .. n_t − 2` of the input entries at
`(r+1, c+1, t, cd+1, dp+1)`; and this is the table saved as
`t_indep_table.npy` in `outdir` when the `clsim` kind is generated. -/
theorem clsim_t_indep_interior_time_sum
    {n₁ n₂ n₃ n₄ n₅ : Nat} (fs : TableFS n₁ n₂ n₃ n₄ n₅)
    (expand : String → String) (table : String) (kind : List String)
    (od : String) (overwrite : Bool) (p : String)
    (t : Table5 n₁ n₂ n₃ n₄ n₅)
    (i : Fin (n₁ - 2)) (j : Fin (n₂ - 2)) (l : Fin (n₄ - 2)) (m : Fin (n₅ - 2))
    (hc : "clsim" ∈ normKinds kind)
    (hg : overwrite = true ∨ fs.isfile (pathJoin od "t_indep_table.npy") = false)
    (hp : clsimSourcePath fs (normKinds kind) (expand table) = some p) :
    clsimTIndepTable t i j l m
        = ∑ k : Fin (n₃ - 2),
            t (innerIdx i) (innerIdx j) (innerIdx k) (innerIdx l) (innerIdx m)
      ∧ (innerIdx i).val = i.val + 1
      ∧ (generateTimeIndepTables fs expand table kind (some od) overwrite).savedClsim
          = some (clsimTIndepTable (fs.clsimTable p))
      ∧ TblEv.saveNpy (pathJoin od "t_indep_table.npy")
          ∈ (generateTimeIndepTables fs expand table kind (some od) overwrite).events := by
  rcases hg with h | h <;>
    refine ⟨rfl, rfl, ?_, ?_⟩ <;>
      simp [generateTimeIndepTables, clsimBranchRun, deriveOutdir, hc, hp, h]

/-- Appending different suffixes to the same string gives different
strings. -/
lemma string_append_ne (a : String) {b c : String} (h : b ≠ c) :
    a ++ b ≠ a ++ c := by
  intro hEq
  apply h
  have hd : a.data ++ b.data = a.data ++ c.data := congrArg String.data hEq
  have h2 := List.append_cancel_left hd
  cases b; cases c; exact congrArg String.mk h2

/-- Joining different file names under the same directory gives different
paths. -/
lemma pathJoin_ne (od : String) {b c : String} (h : b ≠ c) :
    pathJoin od b ≠ pathJoin od c :=
  string_append_ne (od ++ "/") h

/-- The `clsim` branch either raises `ValueError` having done nothing, or
performs no effect, or performs exactly `mkdir`, one load, and one save to
`outdir/t_indep_table.npy`. -/
lemma clsimBranchRun_cases {n₁ n₂ n₃ n₄ n₅ : Nat} (fs : TableFS n₁ n₂ n₃ n₄ n₅)
    (kinds : List String) (od : String) (overwrite : Bool) (table : String) :
    clsimBranchRun fs kinds od overwrite table
        = ⟨[], none, some .valueError⟩
    ∨ clsimBranchRun fs kinds od overwrite table = ⟨[], none, none⟩
    ∨ ∃ p, clsimBranchRun fs kinds od overwrite table
        = ⟨[TblEv.mkdirEv od, TblEv.loadClsim p,
            TblEv.saveNpy (pathJoin od "t_indep_table.npy")],
           some (clsimTIndepTable (fs.clsimTable p)), none⟩ := by
  by_cases hcond : (kinds.contains "clsim"
      && (overwrite
          || !(kinds.contains "clsim"
                && fs.isfile (pathJoin od "t_indep_table.npy")))) = true
  · cases hsp : clsimSourcePath fs kinds table with
    | none =>
      left
      simp only [clsimBranchRun]
      rw [if_pos hcond, hsp]
    | some p =>
      right; right
      refine ⟨p, ?_⟩
      simp only [clsimBranchRun]
      rw [if_pos hcond, hsp]
  · right; left
    simp only [clsimBranchRun]
    rw [if_neg hcond]

/-- The `ckv` branch either raises `ValueError` having done nothing, or
performs no effect, or performs exactly `mkdir`, one load, and one save to
`outdir/t_indep_ckv_table.npy`. -/
lemma ckvBranchRun_cases {n₁ n₂ n₃ n₄ n₅ : Nat} (fs : TableFS n₁ n₂ n₃ n₄ n₅)
    (kinds : List String) (od : String) (overwrite : Bool) (table : String) :
    ckvBranchRun fs kinds od overwrite table
        = ⟨[], none, some .valueError⟩
    ∨ ckvBranchRun fs kinds od overwrite table = ⟨[], none, none⟩
    ∨ ∃ q, ckvBranchRun fs kinds od overwrite table
        = ⟨[TblEv.mkdirEv od, TblEv.loadCkv q,
            TblEv.saveNpy (pathJoin od "t_indep_ckv_table.npy")],
           some (ckvTIndepTable (fs.ckvTable q)), none⟩ := by
  by_cases hcond : (kinds.contains "ckv"
      && (overwrite
          || !(kinds.contains "ckv"
                && fs.isfile (pathJoin od "t_indep_ckv_table.npy")))) = true
  · cases hsp : ckvSourcePath fs kinds table with
    | none =>
      left
      simp only [ckvBranchRun]
      rw [if_pos hcond, hsp]
    | some q =>
      right; right
      refine ⟨q, ?_⟩
      simp only [ckvBranchRun]
      rw [if_pos hcond, hsp]
  · right; left
    simp only [ckvBranchRun]
    rw [if_neg hcond]

/-- A concrete filesystem holding a CLSim table directory `d` with both
source tables present, and an empty output directory `o`. -/
def wTableFS : TableFS 5 5 5 5 5 where
  isfile := fun s => s == "d/table.npy" || s == "d/ckv_table.npy"
  isdir := fun s => s == "d"
  clsimTable := fun _ => onesTable5
  ckvTable := fun _ => onesTable5

/-- Witness for C1's amended theorem at a concrete input. -/
theorem clsim_t_indep_interior_time_sum_witness :
    ("clsim" ∈ normKinds ["clsim"]
      ∧ clsimSourcePath wTableFS (normKinds ["clsim"]) (id "d") = some "d")
    ∧ (clsimTIndepTable onesTable5 ⟨0, by omega⟩ ⟨0, by omega⟩ ⟨0, by omega⟩ ⟨0, by omega⟩
          = ∑ k : Fin (5 - 2),
              onesTable5 (innerIdx ⟨0, by omega⟩) (innerIdx ⟨0, by omega⟩)
                (innerIdx k) (innerIdx ⟨0, by omega⟩) (innerIdx ⟨0, by omega⟩)
        ∧ (innerIdx (⟨0, by omega⟩ : Fin (5 - 2))).val = (⟨0, by omega⟩ : Fin (5 - 2)).val + 1
        ∧ (generateTimeIndepTables wTableFS id "d" ["clsim"] (some "o") false).savedClsim
            = some (clsimTIndepTable (wTableFS.clsimTable "d"))
        ∧ TblEv.saveNpy (pathJoin "o" "t_indep_table.npy")
            ∈ (generateTimeIndepTables wTableFS id "d" ["clsim"] (some "o") false).events) :=
  ⟨⟨by decide, by decide⟩,
   clsim_t_indep_interior_time_sum wTableFS id "d" ["clsim"] "o" false "d" onesTable5
     ⟨0, by omega⟩ ⟨0, by omega⟩ ⟨0, by omega⟩ ⟨0, by omega⟩
     (by decide) (Or.inr (by decide)) (by decide)⟩

/-- C2: for the `ckv` kind the computed 4D table is the loaded 5D table
summed over its time axis (axis 2): for every index, the output entry is
the sum over all time bins of the corresponding entries of the input table
(it coincides with the specification's time-marginalized table), and this
is the table saved as `t_indep_ckv_table.npy` in `outdir` when the `ckv`
kind is generated. -/
theorem ckv_t_indep_full_time_sum
    {n₁ n₂ n₃ n₄ n₅ : Nat} (fs : TableFS n₁ n₂ n₃ n₄ n₅)
    (expand : String → String) (table : String) (kind : List String)
    (od : String) (overwrite : Bool) (q : String)
    (t : Table5 n₁ n₂ n₃ n₄ n₅)
    (i : Fin n₁) (j : Fin n₂) (l : Fin n₄) (m : Fin n₅)
    (hc : "ckv" ∈ normKinds kind)
    (hg : overwrite = true ∨ fs.isfile (pathJoin od "t_indep_ckv_table.npy") = false)
    (hq : ckvSourcePath fs (normKinds kind) (expand table) = some q)
    (hclsim : (clsimBranchRun fs (normKinds kind) od overwrite (expand table)).err = none) :
    ckvTIndepTable t i j l m = ∑ k : Fin n₃, t i j k l m
      ∧ ckvTIndepTable t i j l m = tIndepSpecTable t i j l m
      ∧ (generateTimeIndepTables fs expand table kind (some od) overwrite).savedCkv
          = some (ckvTIndepTable (fs.ckvTable q))
      ∧ TblEv.saveNpy (pathJoin od "t_indep_ckv_table.npy")
          ∈ (generateTimeIndepTables fs expand table kind (some od) overwrite).events := by
  rcases hg with h | h
  · subst h
    refine ⟨rfl, rfl, ?_, ?_⟩ <;>
      simp [generateTimeIndepTables, ckvBranchRun, deriveOutdir, hclsim, hc, hq]
  · refine ⟨rfl, rfl, ?_, ?_⟩ <;>
      simp [generateTimeIndepTables, ckvBranchRun, deriveOutdir, hclsim, hc, hq, h]

/-- Witness for C2's theorem at a concrete input. -/
theorem ckv_t_indep_full_time_sum_witness :
    ("ckv" ∈ normKinds ["ckv"]
      ∧ ckvSourcePath wTableFS (normKinds ["ckv"]) (id "d") = some "d"
      ∧ (clsimBranchRun wTableFS (normKinds ["ckv"]) "o" false (id "d")).err = none)
    ∧ (ckvTIndepTable onesTable5 0 0 0 0 = ∑ k : Fin 5, onesTable5 0 0 k 0 0
        ∧ ckvTIndepTable onesTable5 0 0 0 0 = tIndepSpecTable onesTable5 0 0 0 0
        ∧ (generateTimeIndepTables wTableFS id "d" ["ckv"] (some "o") false).savedCkv
            = some (ckvTIndepTable (wTableFS.ckvTable "d"))
        ∧ TblEv.saveNpy (pathJoin "o" "t_indep_ckv_table.npy")
            ∈ (generateTimeIndepTables wTableFS id "d" ["ckv"] (some "o") false).events) :=
  ⟨⟨by decide, by decide, by decide⟩,
   ckv_t_indep_full_time_sum wTableFS id "d" ["ckv"] "o" false "d" onesTable5
     0 0 0 0 (by decide) (Or.inr (by decide)) (by decide) (by decide)⟩

/-- C9: with `overwrite=False`, a requested kind whose output file already
exists in `outdir` is skipped entirely: nothing is loaded, nothing is
summed, and nothing is saved for that kind (its branch performs no effect
at all), so the existing output file is left unchanged. -/
theorem gen_skips_existing_time_indep_outputs
    {n₁ n₂ n₃ n₄ n₅ : Nat} (fs : TableFS n₁ n₂ n₃ n₄ n₅)
    (expand : String → String) (table : String) (kind : List String)
    (od : String) :
    ("clsim" ∈ normKinds kind →
      fs.isfile (pathJoin od "t_indep_table.npy") = true →
      (generateTimeIndepTables fs expand table kind (some od) false).savedClsim = none
      ∧ (∀ p, TblEv.loadClsim p
          ∉ (generateTimeIndepTables fs expand table kind (some od) false).events)
      ∧ TblEv.saveNpy (pathJoin od "t_indep_table.npy")
          ∉ (generateTimeIndepTables fs expand table kind (some od) false).events
      ∧ clsimBranchRun fs (normKinds kind) od false (expand table) = ⟨[], none, none⟩)
    ∧ ("ckv" ∈ normKinds kind →
      fs.isfile (pathJoin od "t_indep_ckv_table.npy") = true →
      (generateTimeIndepTables fs expand table kind (some od) false).savedCkv = none
      ∧ (∀ q, TblEv.loadCkv q
          ∉ (generateTimeIndepTables fs expand table kind (some od) false).events)
      ∧ TblEv.saveNpy (pathJoin od "t_indep_ckv_table.npy")
          ∉ (generateTimeIndepTables fs expand table kind (some od) false).events
      ∧ ckvBranchRun fs (normKinds kind) od false (expand table) = ⟨[], none, none⟩) := by
  constructor
  · intro hc hf
    have hcB : (normKinds kind).contains "clsim" = true := by simpa using hc
    have hb₁ : clsimBranchRun fs (normKinds kind) od false (expand table)
        = ⟨[], none, none⟩ := by
      simp only [clsimBranchRun]
      rw [if_neg (by simp [hcB, hf])]
    refine ⟨?_, ?_, ?_, hb₁⟩ <;>
      rcases ckvBranchRun_cases fs (normKinds kind) od false (expand table) with
        hb₂ | hb₂ | ⟨q2, hb₂⟩ <;>
        simp [generateTimeIndepTables, deriveOutdir, hb₁, hb₂] <;>
        exact fun hEq => pathJoin_ne od (by decide) hEq.symm
  · intro hc hf
    have hcB : (normKinds kind).contains "ckv" = true := by simpa using hc
    have hb₂ : ckvBranchRun fs (normKinds kind) od false (expand table)
        = ⟨[], none, none⟩ := by
      simp only [ckvBranchRun]
      rw [if_neg (by simp [hcB, hf])]
    refine ⟨?_, ?_, ?_, hb₂⟩ <;>
      rcases clsimBranchRun_cases fs (normKinds kind) od false (expand table) with
        hb₁ | hb₁ | ⟨p2, hb₁⟩ <;>
        simp [generateTimeIndepTables, deriveOutdir, hb₁, hb₂] <;>
        exact fun hEq => pathJoin_ne od (by decide) hEq.symm

/-- A concrete filesystem where both time-independent output files already
exist in the output directory `o`. -/
def wTableFS2 : TableFS 5 5 5 5 5 where
  isfile := fun s => s == "o/t_indep_table.npy" || s == "o/t_indep_ckv_table.npy"
  isdir := fun s => s == "d"
  clsimTable := fun _ => onesTable5
  ckvTable := fun _ => onesTable5

/-- Witness for C9's theorem at a concrete input. -/
theorem gen_skips_existing_time_indep_outputs_witness :
    ("clsim" ∈ normKinds ["clsim", "ckv"]
      ∧ wTableFS2.isfile (pathJoin "o" "t_indep_table.npy") = true
      ∧ "ckv" ∈ normKinds ["clsim", "ckv"]
      ∧ wTableFS2.isfile (pathJoin "o" "t_indep_ckv_table.npy") = true)
    ∧ ((generateTimeIndepTables wTableFS2 id "d" ["clsim", "ckv"] (some "o") false).savedClsim = none
      ∧ (∀ p, TblEv.loadClsim p
          ∉ (generateTimeIndepTables wTableFS2 id "d" ["clsim", "ckv"] (some "o") false).events)
      ∧ TblEv.saveNpy (pathJoin "o" "t_indep_table.npy")
          ∉ (generateTimeIndepTables wTableFS2 id "d" ["clsim", "ckv"] (some "o") false).events
      ∧ clsimBranchRun wTableFS2 (normKinds ["clsim", "ckv"]) "o" false (id "d")
          = ⟨[], none, none⟩)
    ∧ ((generateTimeIndepTables wTableFS2 id "d" ["clsim", "ckv"] (some "o") false).savedCkv = none
      ∧ (∀ q, TblEv.loadCkv q
          ∉ (generateTimeIndepTables wTableFS2 id "d" ["clsim", "ckv"] (some "o") false).events)
      ∧ TblEv.saveNpy (pathJoin "o" "t_indep_ckv_table.npy")
          ∉ (generateTimeIndepTables wTableFS2 id "d" ["clsim", "ckv"] (some "o") false).events
      ∧ ckvBranchRun wTableFS2 (normKinds ["clsim", "ckv"]) "o" false (id "d")
          = ⟨[], none, none⟩) :=
  ⟨⟨by decide, by decide, by decide, by decide⟩,
   (gen_skips_existing_time_indep_outputs wTableFS2 id "d" ["clsim", "ckv"] "o").1
     (by decide) (by decide),
   (gen_skips_existing_time_indep_outputs wTableFS2 id "d" ["clsim", "ckv"] "o").2
     (by decide) (by decide)⟩

/-- C10: when a requested kind must be generated (its output file does not
exist, or `overwrite` is set) but no source table of that kind was
identified, the call raises `ValueError` before that kind's branch creates
the output directory or writes any file: when it is the `clsim` kind the
whole call has performed no effect at all, and when it is the `ckv` kind
its branch performed no effect and no `ckv` load or save appears in the
call's trace. -/
theorem gen_missing_source_raises_before_output
    {n₁ n₂ n₃ n₄ n₅ : Nat} (fs : TableFS n₁ n₂ n₃ n₄ n₅)
    (expand : String → String) (table : String) (kind : List String)
    (od : String) (overwrite : Bool) :
    ("clsim" ∈ normKinds kind →
      (overwrite = true ∨ fs.isfile (pathJoin od "t_indep_table.npy") = false) →
      clsimSourcePath fs (normKinds kind) (expand table) = none →
      (generateTimeIndepTables fs expand table kind (some od) overwrite).err
          = some .valueError
      ∧ (generateTimeIndepTables fs expand table kind (some od) overwrite).events = []
      ∧ (generateTimeIndepTables fs expand table kind (some od) overwrite).savedClsim = none
      ∧ (generateTimeIndepTables fs expand table kind (some od) overwrite).savedCkv = none)
    ∧ ("ckv" ∈ normKinds kind →
      (overwrite = true ∨ fs.isfile (pathJoin od "t_indep_ckv_table.npy") = false) →
      ckvSourcePath fs (normKinds kind) (expand table) = none →
      (generateTimeIndepTables fs expand table kind (some od) overwrite).err
          = some .valueError
      ∧ ckvBranchRun fs (normKinds kind) od overwrite (expand table)
          = ⟨[], none, some .valueError⟩
      ∧ (∀ q, TblEv.loadCkv q
          ∉ (generateTimeIndepTables fs expand table kind (some od) overwrite).events)
      ∧ TblEv.saveNpy (pathJoin od "t_indep_ckv_table.npy")
          ∉ (generateTimeIndepTables fs expand table kind (some od) overwrite).events
      ∧ (generateTimeIndepTables fs expand table kind (some od) overwrite).savedCkv
          = none) := by
  constructor
  · intro hc hg hp
    have hcB : (normKinds kind).contains "clsim" = true := by simpa using hc
    have hb₁ : clsimBranchRun fs (normKinds kind) od overwrite (expand table)
        = ⟨[], none, some .valueError⟩ := by
      have hcond : (((normKinds kind).contains "clsim")
          && (overwrite
              || !((normKinds kind).contains "clsim"
                    && fs.isfile (pathJoin od "t_indep_table.npy")))) = true := by
        rcases hg with h | h
        · subst h; simp [hc]
        · simp [hc, h]
      simp only [clsimBranchRun]
      rw [if_pos hcond, hp]
    simp [generateTimeIndepTables, deriveOutdir, hb₁]
  · intro hc hg hq
    have hcB : (normKinds kind).contains "ckv" = true := by simpa using hc
    have hb₂ : ckvBranchRun fs (normKinds kind) od overwrite (expand table)
        = ⟨[], none, some .valueError⟩ := by
      have hcond : (((normKinds kind).contains "ckv")
          && (overwrite
              || !((normKinds kind).contains "ckv"
                    && fs.isfile (pathJoin od "t_indep_ckv_table.npy")))) = true := by
        rcases hg with h | h
        · subst h; simp [hc]
        · simp [hc, h]
      simp only [ckvBranchRun]
      rw [if_pos hcond, hq]
    refine ⟨?_, ?_, ?_, ?_, ?_⟩ <;>
      rcases clsimBranchRun_cases fs (normKinds kind) od overwrite (expand table) with
        hb₁ | hb₁ | ⟨p2, hb₁⟩ <;>
        simp [generateTimeIndepTables, deriveOutdir, hb₁, hb₂] <;>
        exact fun hEq => pathJoin_ne od (by decide) hEq.symm

/-- A concrete filesystem where the table directory `d` exists but holds no
source table and no output file exists. -/
def wTableFS3 : TableFS 5 5 5 5 5 where
  isfile := fun _ => false
  isdir := fun s => s == "d"
  clsimTable := fun _ => onesTable5
  ckvTable := fun _ => onesTable5

/-- Witness for C10's theorem at a concrete input. -/
theorem gen_missing_source_raises_before_output_witness :
    ("clsim" ∈ normKinds ["clsim"]
      ∧ wTableFS3.isfile (pathJoin "o" "t_indep_table.npy") = false
      ∧ clsimSourcePath wTableFS3 (normKinds ["clsim"]) (id "d") = none)
    ∧ ((generateTimeIndepTables wTableFS3 id "d" ["clsim"] (some "o") false).err
          = some .valueError
      ∧ (generateTimeIndepTables wTableFS3 id "d" ["clsim"] (some "o") false).events = []
      ∧ (generateTimeIndepTables wTableFS3 id "d" ["clsim"] (some "o") false).savedClsim = none
      ∧ (generateTimeIndepTables wTableFS3 id "d" ["clsim"] (some "o") false).savedCkv = none) :=
  ⟨⟨by decide, by decide, by decide⟩,
   (gen_missing_source_raises_before_output wTableFS3 id "d" ["clsim"] "o" false).1
     (by decide) (Or.inr (by decide)) (by decide)⟩

/-- Boolean-mask indexing of a mapped list by a mapped mask keeps exactly
the images of the elements satisfying the mask's predicate. -/
lemma applyMask_map {α β : Type} (f : α → β) (g : α → Bool) (l : List α) :
    applyMask (l.map f) (l.map g) = (l.filter g).map f := by
  induction l with
  | nil => rfl
  | cons x xs ih =>
    by_cases hg : g x = true <;>
      simp [applyMask, List.filter_cons, hg] <;>
      simpa [applyMask] using ih

/-- Counting complement: the elements a filter drops are those satisfying
the negated predicate. -/
lemma length_sub_filter {α : Type} (p : α → Bool) (l : List α) :
    l.length - (l.filter p).length = (l.filter (fun a => !(p a))).length := by
  induction l with
  | nil => rfl
  | cons x xs ih =>
    have hle := List.length_filter_le p xs
    by_cases h : p x = true <;> simp [List.filter_cons, h, ← ih] <;> omega

/-- C3: both in `extract`'s summary and in the error data `fit` hands to
distribution fitting, exactly the events whose error is finite and whose
`fit_status` equals `FitStatus.OK` are used: the masked error and weight
lists are those of the events satisfying that predicate, and every event
failing it (non-finite error or non-OK status) is excluded. -/
theorem valid_events_are_finite_and_ok
    (param : String) (pairs : List (RecoEvent × TruthEvent)) :
    extractValidErr param pairs
        = (pairs.filter (isValidEvent param)).filterMap (errOf param)
      ∧ fitValidErr param pairs
        = (pairs.filter (isValidEvent param)).filterMap (errOf param)
      ∧ extractValidWts param pairs
        = (pairs.filter (isValidEvent param)).map (fun pe => pe.2.weight)
      ∧ fitValidWts param pairs
        = (pairs.filter (isValidEvent param)).map (fun pe => pe.2.weight)
      ∧ (∀ pe : RecoEvent × TruthEvent,
          isValidEvent param pe = true
            ↔ isFinite (errOf param pe) = true ∧ pe.1.fit_status = fitStatusOK) := by
  refine ⟨?_, ?_, ?_, ?_, ?_⟩
  · show (applyMask (pairs.map (errOf param)) (pairs.map (isValidEvent param))).filterMap id
        = (pairs.filter (isValidEvent param)).filterMap (errOf param)
    rw [applyMask_map]
    simp [List.filterMap_map]
  · show (applyMask (pairs.map (errOf param)) (pairs.map (isValidEvent param))).filterMap id
        = (pairs.filter (isValidEvent param)).filterMap (errOf param)
    rw [applyMask_map]
    simp [List.filterMap_map]
  · show applyMask (pairs.map (fun pe => pe.2.weight)) (pairs.map (isValidEvent param))
        = (pairs.filter (isValidEvent param)).map (fun pe => pe.2.weight)
    exact applyMask_map _ _ _
  · show applyMask (pairs.map (fun pe => pe.2.weight)) (pairs.map (isValidEvent param))
        = (pairs.filter (isValidEvent param)).map (fun pe => pe.2.weight)
    exact applyMask_map _ _ _
  · intro pe
    simp [isValidEvent]

/-- A `filterMap` whose function is defined everywhere on the list keeps
its length. -/
lemma filterMap_length_of_isSome {α β : Type} (f : α → Option β) (l : List α)
    (h : ∀ x ∈ l, (f x).isSome) : (l.filterMap f).length = l.length := by
  induction l with
  | nil => rfl
  | cons x xs ih =>
    obtain ⟨v, hv⟩ := Option.isSome_iff_exists.mp (h x (by simp))
    simp [List.filterMap_cons, hv, ih (fun y hy => h y (by simp [hy]))]

/-- Folding equation: `err[mask]` inside `extractRow` is `extractValidErr`. -/
lemma extractValidErr_def (param : String) (pairs : List (RecoEvent × TruthEvent)) :
    (applyMask (pairs.map (errOf param)) (extractMask param pairs)).filterMap id
      = extractValidErr param pairs := rfl

/-- Folding equation: `weights[mask]` inside `extractRow` is
`extractValidWts`. -/
lemma extractValidWts_def (param : String) (pairs : List (RecoEvent × TruthEvent)) :
    applyMask (pairs.map (fun pe => pe.2.weight)) (extractMask param pairs)
      = extractValidWts param pairs := rfl

/-- C4: when at least one event survives the mask, the summary row
`extract` produces has `err_min`/`err_median`/`err_max` the weighted 0th,
50th and 100th percentiles of the masked errors, `err_iq50` the weighted
75th minus 25th percentile, `err_iq90` the weighted 95th minus 5th
percentile, `err_mean` the weighted average of the masked errors (all with
the masked weights), and `n_invalid` the number of events the mask
excluded. -/
theorem extract_row_summary
    (wp : List ℚ → ℚ → List ℚ → ℚ) (param : String)
    (pairs : List (RecoEvent × TruthEvent))
    (h : extractValidErr param pairs ≠ []) :
    extractRow wp param pairs = some
      { n_invalid := (pairs.filter (fun pe => !(isValidEvent param pe))).length
        err_mean := weightedAverage (extractValidErr param pairs)
          (extractValidWts param pairs)
        err_median := wp (extractValidErr param pairs) 50 (extractValidWts param pairs)
        err_min := wp (extractValidErr param pairs) 0 (extractValidWts param pairs)
        err_max := wp (extractValidErr param pairs) 100 (extractValidWts param pairs)
        err_iq50 := wp (extractValidErr param pairs) 75 (extractValidWts param pairs)
          - wp (extractValidErr param pairs) 25 (extractValidWts param pairs)
        err_iq90 := wp (extractValidErr param pairs) 95 (extractValidWts param pairs)
          - wp (extractValidErr param pairs) 5 (extractValidWts param pairs) } := by
  have hlen0 : ¬ (extractValidErr param pairs).length = 0 := fun h0 =>
    h (List.length_eq_zero.mp h0)
  have hsome : ∀ pe ∈ pairs.filter (isValidEvent param), (errOf param pe).isSome := by
    intro pe hpe
    have hv := (List.mem_filter.mp hpe).2
    have := ((valid_events_are_finite_and_ok param pairs).2.2.2.2 pe).mp hv
    exact this.1
  have hlenv : (extractValidErr param pairs).length
      = (pairs.filter (isValidEvent param)).length := by
    rw [(valid_events_are_finite_and_ok param pairs).1]
    exact filterMap_length_of_isSome _ _ hsome
  have hinv : pairs.length - (extractValidErr param pairs).length
      = (pairs.filter (fun pe => !(isValidEvent param pe))).length := by
    rw [hlenv]
    exact length_sub_filter _ _
  simp only [extractRow]
  rw [extractValidErr_def, extractValidWts_def, if_neg hlen0]
  congr 1
  rw [List.length_map, hinv]

/-- A concrete truth event: all parameters 0, weight 1. -/
def wTruthEvent : TruthEvent := ⟨fun _ => some 0, 1⟩

/-- A concrete reco event: all parameters 1, `fit_status = OK`. -/
def wRecoEvent : RecoEvent := ⟨fun _ => some 1, 0⟩

/-- One concrete valid reco/truth pair. -/
def wPairs : List (RecoEvent × TruthEvent) := [(wRecoEvent, wTruthEvent)]

/-- A concrete stand-in for the weighted-percentile function. -/
def wWp : List ℚ → ℚ → List ℚ → ℚ := fun _ q _ => q

/-- Witness for C4's theorem at a concrete input. -/
theorem extract_row_summary_witness :
    extractValidErr "x" wPairs ≠ []
    ∧ extractRow wWp "x" wPairs = some
      { n_invalid := (wPairs.filter (fun pe => !(isValidEvent "x" pe))).length
        err_mean := weightedAverage (extractValidErr "x" wPairs)
          (extractValidWts "x" wPairs)
        err_median := wWp (extractValidErr "x" wPairs) 50 (extractValidWts "x" wPairs)
        err_min := wWp (extractValidErr "x" wPairs) 0 (extractValidWts "x" wPairs)
        err_max := wWp (extractValidErr "x" wPairs) 100 (extractValidWts "x" wPairs)
        err_iq50 := wWp (extractValidErr "x" wPairs) 75 (extractValidWts "x" wPairs)
          - wWp (extractValidErr "x" wPairs) 25 (extractValidWts "x" wPairs)
        err_iq90 := wWp (extractValidErr "x" wPairs) 95 (extractValidWts "x" wPairs)
          - wWp (extractValidErr "x" wPairs) 5 (extractValidWts "x" wPairs) } :=
  ⟨by decide, extract_row_summary wWp "x" wPairs (by decide)⟩

/-- C5: when fitting proceeds (no `outfile`, a nonempty distribution list,
and a positive requested process count — `cpu_count` is positive on any
machine), one fitting task is submitted per distribution and the pool's
size is the minimum of `n_procs` (defaulting to the CPU count) and the
number of distributions; in particular it never exceeds the number of
distributions. -/
theorem fit_dtd_one_task_per_distribution_pool_min
    (distributions : List String) (n_procs : Option Nat) (cpuCount : Nat)
    (hne : distributions ≠ []) (hcpu : 1 ≤ n_procs.getD cpuCount) :
    (fitDistributionsToData distributions none n_procs cpuCount).err = none
    ∧ (fitDistributionsToData distributions none n_procs cpuCount).poolSize
        = some (min (n_procs.getD cpuCount) distributions.length)
    ∧ (fitDistributionsToData distributions none n_procs cpuCount).tasksSubmitted
        = distributions.length
    ∧ min (n_procs.getD cpuCount) distributions.length ≤ distributions.length := by
  have hlen : 1 ≤ distributions.length := by
    cases distributions with
    | nil => exact absurd rfl hne
    | cons x xs => simp
  have hmin : 1 ≤ min (n_procs.getD cpuCount) distributions.length :=
    le_min hcpu hlen
  simp only [fitDistributionsToData]
  rw [if_neg (by omega)]
  exact ⟨rfl, rfl, rfl, Nat.min_le_right _ _⟩

/-- Witness for C5's theorem at a concrete input. -/
theorem fit_dtd_one_task_per_distribution_pool_min_witness :
    ((["norm", "expon", "uniform"] : List String) ≠ []
      ∧ 1 ≤ (none : Option Nat).getD 2)
    ∧ ((fitDistributionsToData ["norm", "expon", "uniform"] none none 2).err = none
      ∧ (fitDistributionsToData ["norm", "expon", "uniform"] none none 2).poolSize
          = some (min ((none : Option Nat).getD 2) (["norm", "expon", "uniform"] : List String).length)
      ∧ (fitDistributionsToData ["norm", "expon", "uniform"] none none 2).tasksSubmitted
          = (["norm", "expon", "uniform"] : List String).length
      ∧ min ((none : Option Nat).getD 2) (["norm", "expon", "uniform"] : List String).length
          ≤ (["norm", "expon", "uniform"] : List String).length) :=
  ⟨⟨by decide, by decide⟩,
   fit_dtd_one_task_per_distribution_pool_min ["norm", "expon", "uniform"] none 2
     (by decide) (by decide)⟩

/-- C8: any non-`None` `outfile` makes `fit_distributions_to_data` raise
`AttributeError` at the misspelled `outfile.endsiwth('.pkl')` check before
creating a pool or submitting any fitting task, so asking the function to
save its own results can never succeed; a run that does not raise there
necessarily had `outfile=None`. -/
theorem fit_dtd_outfile_always_raises
    (distributions : List String) (outfile : Option String)
    (n_procs : Option Nat) (cpuCount : Nat) :
    (outfile ≠ none →
      fitDistributionsToData distributions outfile n_procs cpuCount
        = ⟨some .attributeError, none, 0⟩)
    ∧ ((fitDistributionsToData distributions outfile n_procs cpuCount).err = none →
      outfile = none) := by
  constructor
  · intro h
    cases outfile with
    | none => exact absurd rfl h
    | some s => rfl
  · intro h
    cases outfile with
    | none => rfl
    | some s => simp [fitDistributionsToData] at h

/-- Witness for C8's theorem at a concrete input. -/
theorem fit_dtd_outfile_always_raises_witness :
    ((some "results.pkl" : Option String) ≠ none)
    ∧ fitDistributionsToData ["norm"] (some "results.pkl") none 2
        = ⟨some .attributeError, none, 0⟩ :=
  ⟨by decide,
   (fit_dtd_outfile_always_raises ["norm"] (some "results.pkl") none 2).1 (by decide)⟩

/-- The loading loop, run with enough fuel and started at `i`, returns
exactly the contents of the consecutively numbered files before the first
failing index. -/
lemma loadLoop_eq_range_filterMap {α : Type} (f : Nat → Option (List α)) :
    ∀ (k fuel i : Nat), f (i + k) = none → (∀ j, j < k → f (i + j) ≠ none) →
      k < fuel →
      loadLoop f fuel i = (List.range k).filterMap (fun j => f (i + j)) := by
  intro k
  induction k with
  | zero =>
    intro fuel i hk _ hf
    cases fuel with
    | zero => omega
    | succ fuel =>
      have hk0 : f i = none := by simpa using hk
      simp [loadLoop, hk0]
  | succ k ih =>
    intro fuel i hk hlt hf
    cases fuel with
    | zero => omega
    | succ fuel =>
      have h0 : f i ≠ none := by simpa using hlt 0 (Nat.succ_pos k)
      obtain ⟨v, hv⟩ : ∃ v, f i = some v := by
        cases hfi : f i with
        | none => exact absurd hfi h0
        | some v => exact ⟨v, rfl⟩
      have hk' : f (i + 1 + k) = none := by
        have heq : i + (k + 1) = i + 1 + k := by omega
        rwa [heq] at hk
      have hlt' : ∀ j, j < k → f (i + 1 + j) ≠ none := by
        intro j hj
        have heq : i + (j + 1) = i + 1 + j := by omega
        have h2 := hlt (j + 1) (by omega)
        rwa [heq] at h2
      simp only [loadLoop, hv]
      rw [ih fuel (i + 1) hk' hlt' (by omega), List.range_succ_eq_map,
        List.filterMap_cons]
      have hv0 : f (i + 0) = some v := hv
      rw [hv0, List.filterMap_map]
      refine congrArg (v :: ·) (List.filterMap_congr ?_)
      intro j _
      show f (i + 1 + j) = f (i + Nat.succ j)
      congr 1
      omega

/-- C6: for every flavor and reco, `extract` loads sample files at
consecutively numbered indices starting from 0 and stops at the first index
whose file fails to load; the concatenated truth and reco arrays consist of
exactly the files before that first failure, in index order, and any files
after the gap never contribute (a filesystem that agrees below the gap
yields the same data regardless of what lies beyond it). -/
theorem sample_loading_stops_at_first_gap
    (fs : SampleFS) (fuel flav k kr : Nat) (reco : String)
    (hk : fs.truthFile flav k = none)
    (hlt : ∀ j, j < k → fs.truthFile flav j ≠ none)
    (hfk : k < fuel)
    (hkr : fs.recoFile flav reco kr = none)
    (hltr : ∀ j, j < kr → fs.recoFile flav reco j ≠ none)
    (hfr : kr < fuel) :
    flavTruth fs fuel flav = ((List.range k).filterMap (fs.truthFile flav)).flatten
    ∧ flavReco fs fuel flav reco
        = ((List.range kr).filterMap (fs.recoFile flav reco)).flatten
    ∧ (∀ g : Nat → Option (List TruthEvent),
        (∀ j, j < k → g j = fs.truthFile flav j) → g k = none →
        (loadLoop g fuel 0).flatten = flavTruth fs fuel flav) := by
  have hmain : loadLoop (fs.truthFile flav) fuel 0
      = (List.range k).filterMap (fs.truthFile flav) := by
    have := loadLoop_eq_range_filterMap (fs.truthFile flav) k fuel 0
      (by simpa using hk) (fun j hj => by simpa using hlt j hj) hfk
    simpa using this
  have hmainr : loadLoop (fs.recoFile flav reco) fuel 0
      = (List.range kr).filterMap (fs.recoFile flav reco) := by
    have := loadLoop_eq_range_filterMap (fs.recoFile flav reco) kr fuel 0
      (by simpa using hkr) (fun j hj => by simpa using hltr j hj) hfr
    simpa using this
  refine ⟨?_, ?_, ?_⟩
  · rw [flavTruth, hmain]
  · rw [flavReco, hmainr]
  · intro g hg hgk
    have hgmain : loadLoop g fuel 0 = (List.range k).filterMap g := by
      have := loadLoop_eq_range_filterMap g k fuel 0
        (by simpa using hgk)
        (fun j hj => by
          have := hg j hj
          simp only [Nat.zero_add]
          rw [this]
          exact hlt j hj) hfk
      simpa using this
    rw [flavTruth, hmain, hgmain]
    refine congrArg List.flatten (List.filterMap_congr ?_)
    intro j hj
    exact hg j (List.mem_range.mp hj)

/-- A concrete sample filesystem: every flavor has a truth file and a reco
file at index 0, nothing at index 1, and a further truth file at index 2 —
beyond the gap, so it must never be loaded. -/
def wSampleFS : SampleFS where
  truthFile := fun _ i =>
    if i = 0 then some [wTruthEvent]
    else if i = 2 then some [wTruthEvent, wTruthEvent]
    else none
  recoFile := fun _ _ i => if i = 0 then some [wRecoEvent] else none

/-- Witness for C6's theorem at a concrete input (note the sample file at
index 2, beyond the gap at index 1, which the loop never reads). -/
theorem sample_loading_stops_at_first_gap_witness :
    (wSampleFS.truthFile 12 1 = none
      ∧ wSampleFS.truthFile 12 2 ≠ none
      ∧ wSampleFS.recoFile 12 "LineFit" 1 = none)
    ∧ (flavTruth wSampleFS 3 12
          = ((List.range 1).filterMap (wSampleFS.truthFile 12)).flatten
      ∧ flavReco wSampleFS 3 12 "LineFit"
          = ((List.range 1).filterMap (wSampleFS.recoFile 12 "LineFit")).flatten
      ∧ (∀ g : Nat → Option (List TruthEvent),
          (∀ j, j < 1 → g j = wSampleFS.truthFile 12 j) → g 1 = none →
          (loadLoop g 3 0).flatten = flavTruth wSampleFS 3 12)) :=
  ⟨⟨rfl, by simp [wSampleFS], rfl⟩,
   sample_loading_stops_at_first_gap wSampleFS 3 12 1 1 "LineFit"
     rfl
     (fun j hj => by
       have hj0 : j = 0 := by omega
       subst hj0
       simp [wSampleFS])
     (by omega)
     rfl
     (fun j hj => by
       have hj0 : j = 0 := by omega
       subst hj0
       simp [wSampleFS])
     (by omega)⟩

/-- Sorting strings is invariant under permutation of the input. -/
lemma sortStrings_perm_eq {l l' : List String} (h : l.Perm l') :
    sortStrings l = sortStrings l' :=
  List.eq_of_perm_of_sorted
    ((List.perm_insertionSort _ l).trans (h.trans (List.perm_insertionSort _ l').symm))
    (List.sorted_insertionSort _ l)
    (List.sorted_insertionSort _ l')

/-- C7: a completed `extract` persists exactly when `outdir` is not `None`:
with `outdir=None` nothing is written, and with an `outdir` it writes
exactly the three pickles `reco_perf.pkl`, `truth.pkl`, `recos.pkl` into it
(creating the directory first when it does not exist); independently, a
completed `fit` writes exactly one pickle, into `datadir`, whose name is
determined by the reco name, the sorted parameter list, and the (truncated)
hash of the sorted distribution names — permuting the parameters or the
distributions leaves the name unchanged. -/
theorem extract_persists_iff_outdir_and_fit_pickle_name
    (fs : SampleFS) (wp : List ℚ → ℚ → List ℚ → ℚ) (fuel : Nat)
    (recos params : List String) (isdirE : String → Bool)
    (expandO : String → String) (d : String)
    (isdirH isfileH : Bool) (shaHex : String → String)
    (datadir reco : String) (fparams fdists : List String) :
    runWrites (extractRun fs wp fuel recos params isdirE expandO none) = []
    ∧ ((extractRun fs wp fuel recos params isdirE expandO (some d)).isOk = true →
        runWrites (extractRun fs wp fuel recos params isdirE expandO (some d))
            = (if isdirE (expandO d) then [] else [FDEv.mkdirEv (expandO d)])
              ++ [FDEv.pickleWrite (pathJoin (expandO d) "reco_perf.pkl"),
                  FDEv.pickleWrite (pathJoin (expandO d) "truth.pkl"),
                  FDEv.pickleWrite (pathJoin (expandO d) "recos.pkl")]
        ∧ pickleWritePaths
              (runWrites (extractRun fs wp fuel recos params isdirE expandO (some d)))
            = [pathJoin (expandO d) "reco_perf.pkl",
               pathJoin (expandO d) "truth.pkl",
               pathJoin (expandO d) "recos.pkl"])
    ∧ (∀ evs, fitRun true isdirH isfileH shaHex datadir reco fparams fdists = .ok evs →
        pickleWritePaths evs
          = [pathJoin datadir (fitOutName reco (sortStrings fparams)
              ((shaHex (String.intercalate " " (sortStrings fdists.dedup))).take 10))])
    ∧ (∀ fparams' fdists' : List String, fparams'.Perm fparams → fdists'.Perm fdists →
        fitOutName reco (sortStrings fparams')
            ((shaHex (String.intercalate " " (sortStrings fdists'.dedup))).take 10)
          = fitOutName reco (sortStrings fparams)
            ((shaHex (String.intercalate " " (sortStrings fdists.dedup))).take 10)) := by
  have hfit : fitRun true isdirH isfileH shaHex datadir reco fparams fdists
      = .ok ((if isdirH then []
              else [FDEv.mkdirEv (pathJoin datadir "distributions_sha256")])
          ++ (if isfileH then []
              else [FDEv.textWrite (pathJoin (pathJoin datadir "distributions_sha256")
                  ((shaHex (String.intercalate " " (sortStrings fdists.dedup))).take 10))])
          ++ [FDEv.pickleWrite (pathJoin datadir
              (fitOutName reco (sortStrings fparams)
                ((shaHex (String.intercalate " " (sortStrings fdists.dedup))).take 10)))]) := by
    simp [fitRun]
  refine ⟨?_, ?_, ?_, ?_⟩
  · cases hm : extractRows fs wp fuel recos params with
    | none => simp [extractRun, runWrites, hm]
    | some rows =>
      by_cases he : rows.isEmpty = true <;>
        simp [extractRun, runWrites, extractPersistEvents, hm, he]
  · intro h
    cases hm : extractRows fs wp fuel recos params with
    | none => simp [extractRun, hm, Except.isOk, Except.toBool] at h
    | some rows =>
      by_cases he : rows.isEmpty = true
      · simp [extractRun, hm, he, Except.isOk, Except.toBool] at h
      · constructor
        · simp [extractRun, runWrites, extractPersistEvents, hm, he]
        · by_cases hd : isdirE (expandO d) = true <;>
            simp [extractRun, runWrites, extractPersistEvents, pickleWritePaths,
              hm, he, hd]
  · intro evs hev
    have hE := Except.ok.inj (hfit.symm.trans hev)
    subst hE
    by_cases h1 : isdirH = true <;> by_cases h2 : isfileH = true <;>
      simp [pickleWritePaths, h1, h2]
  · intro fparams' fdists' hp hd2
    rw [sortStrings_perm_eq hp, sortStrings_perm_eq hd2.dedup]

/-- A concrete stand-in for the sha256 hex digest. -/
def wSha : String → String := fun _ => "0123456789abcdef"

/-- Witness for C7's theorem at a concrete input. -/
theorem extract_persists_iff_outdir_and_fit_pickle_name_witness :
    ((extractRun wSampleFS wWp 3 ["LineFit"] ["x"] (fun _ => false) id (some "out")).isOk = true
      ∧ fitRun true true true wSha "data" "LineFit" ["y", "x"] ["norm"]
          = .ok ([] ++ [] ++ [FDEv.pickleWrite (pathJoin "data"
              (fitOutName "LineFit" (sortStrings ["y", "x"])
                ((wSha (String.intercalate " "
                  (sortStrings (["norm"] : List String).dedup))).take 10)))])
      ∧ (["x", "y"] : List String).Perm ["y", "x"])
    ∧ (runWrites (extractRun wSampleFS wWp 3 ["LineFit"] ["x"] (fun _ => false) id (some "out"))
          = (if (fun _ : String => false) (id "out") then [] else [FDEv.mkdirEv (id "out")])
            ++ [FDEv.pickleWrite (pathJoin (id "out") "reco_perf.pkl"),
                FDEv.pickleWrite (pathJoin (id "out") "truth.pkl"),
                FDEv.pickleWrite (pathJoin (id "out") "recos.pkl")]
        ∧ pickleWritePaths (runWrites
              (extractRun wSampleFS wWp 3 ["LineFit"] ["x"] (fun _ => false) id (some "out")))
          = [pathJoin (id "out") "reco_perf.pkl", pathJoin (id "out") "truth.pkl",
             pathJoin (id "out") "recos.pkl"])
    ∧ pickleWritePaths ([] ++ [] ++ [FDEv.pickleWrite (pathJoin "data"
          (fitOutName "LineFit" (sortStrings ["y", "x"])
            ((wSha (String.intercalate " "
              (sortStrings (["norm"] : List String).dedup))).take 10)))])
        = [pathJoin "data" (fitOutName "LineFit" (sortStrings ["y", "x"])
            ((wSha (String.intercalate " "
              (sortStrings (["norm"] : List String).dedup))).take 10))]
    ∧ fitOutName "LineFit" (sortStrings ["x", "y"])
          ((wSha (String.intercalate " "
            (sortStrings (["norm"] : List String).dedup))).take 10)
        = fitOutName "LineFit" (sortStrings ["y", "x"])
          ((wSha (String.intercalate " "
            (sortStrings (["norm"] : List String).dedup))).take 10) :=
  have hthm := extract_persists_iff_outdir_and_fit_pickle_name wSampleFS wWp 3
    ["LineFit"] ["x"] (fun _ => false) id "out" true true wSha "data" "LineFit"
    ["y", "x"] ["norm"]
  ⟨⟨by decide, rfl, by decide⟩,
   hthm.2.1 (by decide),
   hthm.2.2.1 ([] ++ [] ++ [FDEv.pickleWrite (pathJoin "data"
       (fitOutName "LineFit" (sortStrings ["y", "x"])
         ((wSha (String.intercalate " "
           (sortStrings (["norm"] : List String).dedup))).take 10)))]) rfl,
   hthm.2.2.2 ["x", "y"] ["norm"] (by decide) (by decide)⟩

end Retro
